import Mathlib

/-! The base store index and the log configuration of orbitdb-go.

A shallow embedding of

* `pkg/berty.tech/go-orbit-db/stores/basestore/base_index.go`
  (`baseIndex`, `Get`, `UpdateIndex`, `NewBaseIndex`),
* `pkg/log/config.go` (`Config`, `DefaultConfig`, `SetDefaults`, `Validate`, `Update`),
  and
* `services/config.go` (`Config`, `DefaultConfig`, `SetDefaults`, `Validate`),

followed by the properties of these definitions.

Conventions of the embedding.

* A method with a pointer receiver is a function from the receiver value to the
  pair of its Go result and the receiver value after the call, so that what a
  call leaves untouched is a statement and not an artefact of the types.
* A Go `error` is an `Option String`: `none` is `nil`, `some msg` is an error
  value with message `msg`.
* A Go slice is the list of its elements; the `nil` slice is the empty list.
* An unbounded `for` loop takes a fuel argument counting iterations and yields
  `none` when the fuel is used up before the loop is left.
* Where a call may panic, its result is an `Option`, `none` when it does not return.
-/

/-- The Go `error` interface: `none` is `nil`, `some msg` an error with message `msg`. -/
abbrev error := Option String

namespace basestore

/-- The ordered entry collection returned by `Log.Values()`. The type is declared outside
the embedded files; the only method `base_index.go` calls on it is `Slice()`, which is
the field of this record. -/
structure OrderedMap (Entry : Type) where
  /-- The result of `Slice()`. -/
  Slice : List Entry

/-- The interface `ipfslog.Log`, declared outside the embedded files, as a (non-nil) handle
in one given state of the log. The only method `base_index.go` calls on it is `Values()`,
which is the field of this record. -/
structure Log (Entry : Type) where
  /-- The result of `Values()`. -/
  Values : OrderedMap Entry

/-- The struct `baseIndex` (base_index.go, lines 11-15). The field `mu sync.Mutex` is
left out: every method acquires it on entry and releases it by `defer` on return, so
between two calls of a sequential run it is always free and carries no information. -/
structure baseIndex (Entry : Type) where
  /-- The field `id []byte`. -/
  id : List UInt8
  /-- The field `index []ipfslog.Entry`. -/
  index : List Entry

variable {Entry : Type}

/-- The method `Get` (base_index.go, lines 17-21): `return b.index`. The selector
argument is the blank identifier in the source. The result is the pair of the
returned view and the receiver after the call. -/
def baseIndex.Get (b : baseIndex Entry) (_ : String) : List Entry × baseIndex Entry :=
  (b.index, b)

/-- The method `UpdateIndex` (base_index.go, lines 23-28):
`b.index = log.Values().Slice(); return nil`. The result is the pair of the returned
error and the receiver after the call. -/
def baseIndex.UpdateIndex (b : baseIndex Entry) (log : Log Entry) (_entries : List Entry) :
    error × baseIndex Entry :=
  (none, { b with index := log.Values.Slice })

/-- The constructor `NewBaseIndex` (base_index.go, lines 31-35):
a `baseIndex` literal that sets only `id: publicKey`; the field `index` keeps its zero
value, the nil slice. -/
def NewBaseIndex (publicKey : List UInt8) : baseIndex Entry :=
  { id := publicKey, index := [] }

/-- One call on the index through its two methods, with the arguments of the call. -/
inductive Call (Entry : Type) where
  /-- A call `Get(name)`. -/
  | Get (name : String)
  /-- A call `UpdateIndex(log, entries)`. -/
  | UpdateIndex (log : Log Entry) (entries : List Entry)

/-- What a call hands back: the view of a `Get`, the error of an `UpdateIndex`. -/
inductive Outcome (Entry : Type) where
  /-- The view returned by `Get`. -/
  | view (v : List Entry)
  /-- The error returned by `UpdateIndex`. -/
  | err (e : error)

/-- Perform one call on the index: the outcome and the index after the call. -/
def baseIndex.call (b : baseIndex Entry) : Call Entry → Outcome Entry × baseIndex Entry
  | .Get name => ((b.Get name).1 |> Outcome.view, (b.Get name).2)
  | .UpdateIndex log entries =>
    ((b.UpdateIndex log entries).1 |> Outcome.err, (b.UpdateIndex log entries).2)

/-- Perform a finite sequence of calls, first to last: the index after the last call. -/
def baseIndex.run (b : baseIndex Entry) : List (Call Entry) → baseIndex Entry
  | [] => b
  | c :: cs => baseIndex.run (b.call c).2 cs

/-- The log handed to the most recent `UpdateIndex` of a sequence of calls, `none` when
the sequence holds no `UpdateIndex`. -/
def lastLog : List (Call Entry) → Option (Log Entry)
  | [] => none
  | .Get _ :: cs => lastLog cs
  | .UpdateIndex log _ :: cs =>
    match lastLog cs with
    | some later => some later
    | none => some log

/-- The two states of the index in the state machine of the specification. -/
inductive Phase where
  /-- No `UpdateIndex` has been applied yet. -/
  | Empty
  /-- At least one `UpdateIndex` has been applied. -/
  | Populated
  deriving DecidableEq, Repr

/-- The state reached by a sequence of calls on a fresh index. -/
def phase (cs : List (Call Entry)) : Phase :=
  match lastLog cs with
  | none => Phase.Empty
  | some _ => Phase.Populated

/-- The value returned by `log.Values()` when that call may fail: `Slice` is `none` when
the call `Slice()` on it does not return (it panics), `some entries` when it returns
`entries`. -/
structure OrderedMapHandle (Entry : Type) where
  /-- The result of `Slice()`, `none` when the call does not return. -/
  Slice : Option (List Entry)

/-- A value of the interface type `ipfslog.Log` as a caller can hand it to `UpdateIndex`,
when the snapshot accessor may fail: `Values` is `none` when the call `log.Values()` does
not return, which is the case of the nil interface value (the call panics with a nil
dereference) and of a log whose accessor panics. -/
structure LogHandle (Entry : Type) where
  /-- The result of `Values()`, `none` when the call does not return. -/
  Values : Option (OrderedMapHandle Entry)

/-- The nil value of the interface type `ipfslog.Log`. -/
def LogHandle.nil : LogHandle Entry :=
  { Values := none }

/-- A log whose two accessors return, as a handle. -/
def Log.toHandle (log : Log Entry) : LogHandle Entry :=
  { Values := some { Slice := some log.Values.Slice } }

/-- What the expression `log.Values().Slice()` evaluates to: `none` when one of the two
calls does not return, that is, when the handle fails to produce a snapshot. -/
def LogHandle.snapshot (log : LogHandle Entry) : Option (List Entry) :=
  match log.Values with
  | none => none
  | some values => values.Slice

/-- The method `UpdateIndex` (base_index.go, lines 23-28) on a handle whose snapshot
accessor may fail. The right-hand side `log.Values().Slice()` is evaluated before the
assignment to `b.index`; when one of its calls panics the assignment and `return nil`
are not reached, the deferred `b.mu.Unlock()` runs and the receiver is as it was. The
result is the pair of the way the call ends, `some err` when it returns `err` and `none`
when it does not return, and the receiver after the call. -/
def baseIndex.UpdateIndexHandle (b : baseIndex Entry) (log : LogHandle Entry)
    (_entries : List Entry) : Option error × baseIndex Entry :=
  match log.Values with
  | none => (none, b)
  | some values =>
    match values.Slice with
    | none => (none, b)
    | some entries => (some none, { b with index := entries })

end basestore

namespace log

/-- The struct `Config` (config.go, lines 14-16). -/
structure Config where
  /-- The field `Level string`. -/
  Level : String
  deriving DecidableEq, Repr

/-- The package variable `DefaultConfig` (config.go, lines 8-12). -/
def DefaultConfig : Config :=
  { Level := "info" }

/-- The method `SetDefaults` (config.go, lines 18-28): the labeled loop
`loop: for` around a `switch` whose first case assigns the default level when
`c.Level` is empty and whose `default` case is `break loop`. One unit of fuel is one
iteration; the result is the receiver when the loop is left, `none` when the fuel is
used up first. -/
def Config.SetDefaults : Nat → Config → Option Config
  | 0, _ => none
  | fuel + 1, c =>
    if c.Level = "" then
      Config.SetDefaults fuel { c with Level := DefaultConfig.Level }
    else
      some c

/-- The method `Validate` (config.go, lines 30-35): an error made by `errors.New` when
`c.Level` is empty, `nil` otherwise. The result is the pair of the returned error and the
receiver after the call. -/
def Config.Validate (c : Config) : error × Config :=
  if c.Level = "" then
    (some "level should not be empty", c)
  else
    (none, c)

/-- The single conditional assignment the specification gives as the meaning of
`SetDefaults`: if `c.Level` is empty then `c.Level := DefaultConfig.Level`. -/
def Config.assignDefaultIfUnset (c : Config) : Config :=
  if c.Level = "" then { c with Level := DefaultConfig.Level } else c

end log

namespace bus

/-- The struct `bus.ConfigUpdate`, declared outside the embedded files; `Update` in
`pkg/log/config.go` sets its two fields `Subsystem` and `Config`. The type `S` is the
type of subsystem identifiers and `α` the type of the values handed over as `cc`, which
the source types as `interface`. -/
structure ConfigUpdate (S α : Type) where
  /-- The field `Subsystem`. -/
  Subsystem : S
  /-- The field `Config`. -/
  Config : α

end bus

namespace log

/-- The method `Update` (config.go, lines 37-43): send one `bus.ConfigUpdate` with
`Subsystem: Subsystem` and `Config: cc` on the channel `bus.Config`, then `return nil`.
The package constant `Subsystem` is declared outside the embedded files and is the first
argument. The channel `bus.Config` is the sequence of the values sent on it so far, first
to last, and a send appends its value; whether a send has to wait for a receiver is a
matter of scheduling and is not part of this state. The result is the returned error,
the receiver after the call and the channel after the call. -/
def Config.Update {S α : Type} (Subsystem : S) (c : Config) (cc : α)
    (busConfig : List (bus.ConfigUpdate S α)) :
    error × Config × List (bus.ConfigUpdate S α) :=
  (none, c, busConfig ++ [{ Subsystem := Subsystem, Config := cc }])

end log

namespace services

/-- What `services/config.go` uses of the packages `services/ipfs` and `pkg/errors`, both
declared outside the embedded files. A pointer `*ipfs.Config` is an `Option Nat`: `none`
is `nil`, `some a` the address `a`. The type `Mem` is the memory that holds the
`ipfs.Config` values behind these addresses. A call of an imported method that does not
return (it panics or loops) yields `none`. -/
structure Imports (Mem : Type) where
  /-- The address `&ipfs.DefaultConfig` of the package variable `ipfs.DefaultConfig`. -/
  ipfsDefaultConfig : Nat
  /-- The method `SetDefaults` of `*ipfs.Config`: from the receiver pointer and the memory
  to the memory after the call. -/
  ipfsSetDefaults : Option Nat → Mem → Option Mem
  /-- The method `Validate` of `ipfs.Config`, called through the pointer: the returned
  error. -/
  ipfsValidate : Option Nat → Mem → Option error
  /-- The function `errors.Wrap` on a non-nil error and a message: the message of the
  wrapping error, which is again non-nil. -/
  errorsWrap : String → String → String

variable {Mem : Type}

/-- The struct `Config` (services/config.go, lines 16-19). -/
structure Config where
  /-- The field `IPFS *ipfs.Config`. -/
  IPFS : Option Nat
  deriving DecidableEq, Repr

/-- The package variable `DefaultConfig` (services/config.go, lines 9-12), whose `IPFS`
is `&ipfs.DefaultConfig`. -/
def DefaultConfig (I : Imports Mem) : Config :=
  { IPFS := some I.ipfsDefaultConfig }

/-- The labeled loop of `SetDefaults` (services/config.go, lines 22-32): the first case
of the `switch` assigns `DefaultConfig.IPFS` when `c.IPFS == nil`, the `default` case is
`break loop`. One unit of fuel is one iteration; the result is the receiver when the loop
is left, `none` when the fuel is used up first. -/
def Config.SetDefaultsLoop (I : Imports Mem) : Nat → Config → Option Config
  | 0, _ => none
  | fuel + 1, c =>
    if c.IPFS = none then
      Config.SetDefaultsLoop I fuel { c with IPFS := (DefaultConfig I).IPFS }
    else
      some c

/-- The method `SetDefaults` (services/config.go, lines 21-36): the labeled loop, then
`c.IPFS.SetDefaults()`. The result is the receiver and the memory after the call, `none`
when the loop or the imported method does not return. -/
def Config.SetDefaults (I : Imports Mem) (fuel : Nat) (c : Config) (m : Mem) :
    Option (Config × Mem) :=
  match Config.SetDefaultsLoop I fuel c with
  | none => none
  | some c1 =>
    match I.ipfsSetDefaults c1.IPFS m with
    | none => none
    | some m1 => some (c1, m1)

/-- The method `Validate` (services/config.go, lines 38-48), which has a value receiver:
`err := c.IPFS.Validate()`, and a non-nil `err` is returned as
`errors.Wrap(err, "failed to validate ipfs configuration")`, otherwise `nil`. The result
is the returned error, `none` when the imported method does not return. -/
def Config.Validate (I : Imports Mem) (c : Config) (m : Mem) : Option error :=
  match I.ipfsValidate c.IPFS m with
  | none => none
  | some none => some none
  | some (some err) => some (some (I.errorsWrap err "failed to validate ipfs configuration"))

/-- An instance of the imports for evaluating the two methods: the memory maps an
address to the one string field of an `ipfs.Config`, the default lives at address 100,
`SetDefaults` fills an empty field with "default" and does not return on `nil`,
`Validate` rejects an empty field and does not return on `nil`, and `errors.Wrap` puts
the message and a colon before the wrapped message. -/
def sampleImports : Imports (Nat → String) where
  ipfsDefaultConfig := 100
  ipfsSetDefaults := fun p m =>
    match p with
    | none => none
    | some a => some (fun b => if b = a ∧ m b = "" then "default" else m b)
  ipfsValidate := fun p m =>
    match p with
    | none => none
    | some a => if m a = "" then some (some "path should not be empty") else some none
  errorsWrap := fun err message => message ++ ": " ++ err

end services

/-! ## Auxiliary facts about sequences of calls -/

namespace basestore

variable {Entry : Type}

/-- Every call leaves the field `id` as it was. -/
theorem baseIndex.call_id (b : baseIndex Entry) (c : Call Entry) : (b.call c).2.id = b.id := by
  cases c <;> rfl

/-- After a sequence of calls the view is the snapshot of the log of the most recent
`UpdateIndex`, and the starting view when the sequence holds no `UpdateIndex`. -/
theorem baseIndex.run_index (cs : List (Call Entry)) (b : baseIndex Entry) :
    (b.run cs).index =
      match lastLog cs with
      | none => b.index
      | some L => L.Values.Slice := by
  induction cs generalizing b with
  | nil => rfl
  | cons c cs ih =>
    cases c with
    | Get name => simpa [baseIndex.run, lastLog] using ih (b.call (.Get name)).2
    | UpdateIndex L E =>
      have h := ih (b.call (.UpdateIndex L E)).2
      simp only [baseIndex.run, lastLog]
      rw [h]
      cases lastLog cs <;> rfl

/-- On a handle that produces the snapshot `entries`, `UpdateIndex` returns `nil` and
assigns `entries` to the view. -/
theorem baseIndex.UpdateIndexHandle_of_snapshot (b : baseIndex Entry) (log : LogHandle Entry)
    (E entries : List Entry) (h : log.snapshot = some entries) :
    b.UpdateIndexHandle log E = (some none, { b with index := entries }) := by
  unfold LogHandle.snapshot at h
  unfold baseIndex.UpdateIndexHandle
  cases hv : log.Values with
  | none => rw [hv] at h; cases h
  | some values =>
    rw [hv] at h
    simp only at h ⊢
    rw [h]

/-- On a handle that fails to produce a snapshot, `UpdateIndex` does not return and
leaves the receiver as it was. -/
theorem baseIndex.UpdateIndexHandle_of_no_snapshot (b : baseIndex Entry)
    (log : LogHandle Entry) (E : List Entry) (h : log.snapshot = none) :
    b.UpdateIndexHandle log E = (none, b) := by
  unfold LogHandle.snapshot at h
  unfold baseIndex.UpdateIndexHandle
  cases hv : log.Values with
  | none => rfl
  | some values =>
    rw [hv] at h
    simp only at h ⊢
    rw [h]

/-- On a log whose accessors return, the method on handles is the method `UpdateIndex`:
it returns the same error and leaves the same index. -/
theorem baseIndex.UpdateIndexHandle_toHandle (b : baseIndex Entry) (log : Log Entry)
    (E : List Entry) :
    b.UpdateIndexHandle log.toHandle E = (some (b.UpdateIndex log E).1, (b.UpdateIndex log E).2) := by
  rfl

/-- The most recent `UpdateIndex` of a sequence extended by one call. -/
theorem lastLog_append_singleton (cs : List (Call Entry)) (c : Call Entry) :
    lastLog (cs ++ [c]) =
      match c with
      | .Get _ => lastLog cs
      | .UpdateIndex L _ => some L := by
  induction cs with
  | nil => cases c <;> rfl
  | cons d cs ih =>
    cases d with
    | Get name => simpa [lastLog] using ih
    | UpdateIndex L E =>
      cases c with
      | Get name =>
        have h : lastLog (cs ++ [Call.Get name]) = lastLog cs := ih
        simp only [List.cons_append, lastLog, List.append_eq, h]
      | UpdateIndex L2 E2 =>
        have h : lastLog (cs ++ [Call.UpdateIndex L2 E2]) = some L2 := ih
        simp only [List.cons_append, lastLog, List.append_eq, h]

end basestore

/-! ## The base index: `Get`, `UpdateIndex`, `NewBaseIndex` -/

namespace basestore

variable {Entry : Type}

/-- Claim C1: for every index `b`, every log `L`, every list of new entries `E` and every
name `n`, the view that `Get(n)` returns after `UpdateIndex(L, E)` is exactly the
sequence `L.Values().Slice()`: the same entries in the same order. -/
theorem Get_after_UpdateIndex (b : baseIndex Entry) (L : Log Entry) (E : List Entry)
    (n : String) : ((b.UpdateIndex L E).2.Get n).1 = L.Values.Slice := by
  rfl

/-- The scenario of claim C1: a log holding `[A, B, C]`, an index that held another view,
`UpdateIndex`, then `Get` with the empty name gives `[A, B, C]`. -/
theorem Get_after_UpdateIndex_witness :
    (((({ id := [7], index := ["Z"] } : baseIndex String).UpdateIndex
        ⟨⟨["A", "B", "C"]⟩⟩ ["C"]).2.Get "").1 = ["A", "B", "C"]) :=
  Get_after_UpdateIndex { id := [7], index := ["Z"] } ⟨⟨["A", "B", "C"]⟩⟩ ["C"] ""

/-- Claim C2: for every owner identity `k` and every name `n`, the index made by
`NewBaseIndex(k)` answers `Get(n)`, before any `UpdateIndex`, with the empty view, whose
length is zero; `Get` has no error result and is defined on every input. -/
theorem Get_NewBaseIndex (k : List UInt8) (n : String) :
    ((NewBaseIndex k : baseIndex Entry).Get n).1 = [] ∧
      ((NewBaseIndex k : baseIndex Entry).Get n).1.length = 0 := by
  exact ⟨rfl, rfl⟩

/-- Claim C3: for every index `b`, every log `L` and all entry lists `E1`, `E2`, the
empty list included, `UpdateIndex(L, E1)` followed by `UpdateIndex(L, E2)` on the same
log snapshot leaves the index in the state that `UpdateIndex(L, E1)` alone leaves it in,
returns the same error, and every `Get` then returns the same view. -/
theorem UpdateIndex_twice (b : baseIndex Entry) (L : Log Entry) (E1 E2 : List Entry) :
    ((b.UpdateIndex L E1).2.UpdateIndex L E2).2 = (b.UpdateIndex L E1).2 ∧
      ((b.UpdateIndex L E1).2.UpdateIndex L E2).1 = (b.UpdateIndex L E1).1 ∧
      ((b.UpdateIndex L E1).2.UpdateIndex L []).2 = (b.UpdateIndex L E1).2 ∧
      ∀ n : String, (((b.UpdateIndex L E1).2.UpdateIndex L E2).2.Get n).1 =
        ((b.UpdateIndex L E1).2.Get n).1 := by
  exact ⟨rfl, rfl, rfl, fun _ => rfl⟩

/-- Claim C4: for every index `b`, every log handle and every entry list, a call of
`UpdateIndex` that ends in any other way than returning `nil`, be it with an error or
without returning, is a call whose log handle failed to produce a snapshot; the index
after such a call is the index before it, so `Get` returns the view it returned before
the failed call; and no such call returns an error value, the failed calls of this code
are the ones that do not return. -/
theorem UpdateIndex_failure_retains_view (b : baseIndex Entry) (log : LogHandle Entry)
    (E : List Entry) (hfail : (b.UpdateIndexHandle log E).1 ≠ some none) :
    log.snapshot = none ∧
      (b.UpdateIndexHandle log E).2 = b ∧
      (∀ n : String, ((b.UpdateIndexHandle log E).2.Get n).1 = (b.Get n).1) ∧
      (b.UpdateIndexHandle log E).1 = none := by
  have hsnap : log.snapshot = none := by
    cases hs : log.snapshot with
    | none => rfl
    | some entries =>
      have hr := baseIndex.UpdateIndexHandle_of_snapshot b log E entries hs
      rw [hr] at hfail
      exact absurd rfl hfail
  have hret := baseIndex.UpdateIndexHandle_of_no_snapshot b log E hsnap
  refine ⟨hsnap, ?_, fun n => ?_, ?_⟩
  · rw [hret]
  · rw [hret]
  · rw [hret]

/-- Claim C4 at the nil log handle: the call on an index that holds the view `[Z]` does
not return, and `Get` afterwards still returns `[Z]`. -/
theorem UpdateIndex_failure_retains_view_witness :
    (({ id := [7], index := ["Z"] } : baseIndex String).UpdateIndexHandle
        LogHandle.nil ["C"]).1 ≠ some none ∧
      ((({ id := [7], index := ["Z"] } : baseIndex String).UpdateIndexHandle
        LogHandle.nil ["C"]).2.Get "").1 = ["Z"] :=
  ⟨by decide,
    (UpdateIndex_failure_retains_view { id := [7], index := ["Z"] } LogHandle.nil ["C"]
      (by decide)).2.2.1 ""⟩

/-- Claim C5: `Get` ignores its selector and only reads: for every index `b` and all
names `n1`, `n2`, `Get(n1)` and `Get(n2)` return the same view, which is the field
`index`, and the index after `Get` has the view and the owner id it had before. -/
theorem Get_pure_read (b : baseIndex Entry) (n1 n2 : String) :
    (b.Get n1).1 = (b.Get n2).1 ∧ (b.Get n1).1 = b.index ∧
      (b.Get n1).2.index = b.index ∧ (b.Get n1).2.id = b.id ∧ (b.Get n1).2 = b := by
  exact ⟨rfl, rfl, rfl, rfl, rfl⟩

/-- Claim C9: for every finite sequence `cs` of `Get` and `UpdateIndex` calls on a fresh
index, the view (the field `index`, which is what `Get` returns) is empty when `cs`
holds no `UpdateIndex` (state `Empty`) and is otherwise exactly `L.Values().Slice()` for
the log `L` of the most recent `UpdateIndex` (state `Populated`), hence one snapshot and
never a mix of two. A further call keeps the state `Populated`, and it turns a non-empty
view into the empty one only if it is an `UpdateIndex` whose log has an empty snapshot. -/
theorem view_is_one_snapshot (k : List UInt8) (cs : List (Call Entry)) :
    ((NewBaseIndex k).run cs).index =
        (match lastLog cs with
         | none => []
         | some L => L.Values.Slice) ∧
      (∀ n : String, (((NewBaseIndex k).run cs).Get n).1 = ((NewBaseIndex k).run cs).index) ∧
      (phase cs = Phase.Empty → ((NewBaseIndex k).run cs).index = []) ∧
      (phase cs = Phase.Populated →
        ∃ L, lastLog cs = some L ∧ ((NewBaseIndex k).run cs).index = L.Values.Slice) ∧
      (∀ c : Call Entry, phase cs = Phase.Populated → phase (cs ++ [c]) = Phase.Populated) ∧
      (∀ c : Call Entry, ((NewBaseIndex k).run cs).index ≠ [] →
        (((NewBaseIndex k).run cs).call c).2.index = [] →
        ∃ L E, c = Call.UpdateIndex L E ∧ L.Values.Slice = []) := by
  have hrun := baseIndex.run_index cs (NewBaseIndex k)
  refine ⟨hrun, fun _ => rfl, ?_, ?_, ?_, ?_⟩
  · intro hp
    rw [hrun]
    unfold phase at hp
    cases h : lastLog cs with
    | none => rfl
    | some L => rw [h] at hp; cases hp
  · intro hp
    unfold phase at hp
    cases h : lastLog cs with
    | none => rw [h] at hp; cases hp
    | some L => exact ⟨L, rfl, by rw [hrun, h]⟩
  · intro c hp
    unfold phase at hp ⊢
    rw [lastLog_append_singleton]
    cases c with
    | Get name => exact hp
    | UpdateIndex L E => rfl
  · intro c hne hempty
    cases c with
    | Get name => exact absurd hempty hne
    | UpdateIndex L E => exact ⟨L, E, rfl, hempty⟩

/-- A run for claim C9: two updates with a `Get` before, between and after them; the view
is the snapshot of the second log, and the state is `Populated`. -/
theorem view_is_one_snapshot_witness :
    ((NewBaseIndex [1, 2]).run
        [Call.Get "a", Call.UpdateIndex ⟨⟨["A", "B"]⟩⟩ [], Call.Get "",
          Call.UpdateIndex ⟨⟨["A", "B", "C"]⟩⟩ ["C"], Call.Get "b"]).index
      = ["A", "B", "C"] :=
  (view_is_one_snapshot [1, 2]
    [Call.Get "a", Call.UpdateIndex ⟨⟨["A", "B"]⟩⟩ [], Call.Get "",
      Call.UpdateIndex ⟨⟨["A", "B", "C"]⟩⟩ ["C"], Call.Get "b"]).1

end basestore

/-! ## The log configuration: `SetDefaults`, `Validate` -/

namespace log

/-- Two iterations always leave the loop of `SetDefaults`, with the default level
assigned when the level was empty and the receiver unchanged otherwise. -/
theorem Config.SetDefaults_eq (c : Config) (fuel : Nat) :
    c.SetDefaults (fuel + 2) =
      some (if c.Level = "" then { c with Level := DefaultConfig.Level } else c) := by
  by_cases h : c.Level = ""
  · have hd : ¬ DefaultConfig.Level = "" := by decide
    simp [Config.SetDefaults, h, hd]
  · simp [Config.SetDefaults, h]

/-- Claim C6: for every `Config` whose `Level` is empty, `SetDefaults` returns (two
iterations of its loop are enough), `Validate` on the result returns no error, and the
`Level` of the result is the default `DefaultConfig.Level`, which is `"info"`. -/
theorem SetDefaults_then_Validate (c : Config) (fuel : Nat) (h : c.Level = "") :
    ∃ c1 : Config, c.SetDefaults (fuel + 2) = some c1 ∧ c1.Validate.1 = none ∧
      c1.Level = DefaultConfig.Level ∧ DefaultConfig.Level = "info" := by
  refine ⟨{ c with Level := DefaultConfig.Level }, ?_, ?_, rfl, rfl⟩
  · rw [Config.SetDefaults_eq, if_pos h]
  · have hd : ¬ DefaultConfig.Level = "" := by decide
    simp [Config.Validate, hd]

/-- Claim C6 at the configuration with the empty level. -/
theorem SetDefaults_then_Validate_witness :
    ({ Level := "" } : Config).Level = "" ∧
      ∃ c1 : Config, Config.SetDefaults 2 { Level := "" } = some c1 ∧ c1.Validate.1 = none ∧
        c1.Level = DefaultConfig.Level ∧ DefaultConfig.Level = "info" :=
  ⟨rfl, SetDefaults_then_Validate { Level := "" } 0 rfl⟩

/-- Claim C7: for every `Config` `c`, `Validate` returns an error if and only if
`c.Level` is the empty string (the error then reads "level should not be empty"), it
returns `nil` for every non-empty `Level`, and it leaves `c` as it was. -/
theorem Validate_error_iff (c : Config) :
    (c.Validate.1 ≠ none ↔ c.Level = "") ∧
      (c.Level = "" → c.Validate.1 = some "level should not be empty") ∧
      (c.Level ≠ "" → c.Validate.1 = none) ∧
      c.Validate.2 = c := by
  by_cases h : c.Level = "" <;> simp [Config.Validate, h]

/-- Claim C8: for every `Config` `c` the labeled loop of `SetDefaults` is left after at
most two iterations, so it terminates, and the receiver it leaves is the one the single
conditional assignment "if `c.Level` is empty then `c.Level := DefaultConfig.Level`"
gives; more iterations change nothing. -/
theorem SetDefaults_refines_assignment (c : Config) (fuel : Nat) :
    c.SetDefaults (fuel + 2) = some c.assignDefaultIfUnset := by
  rw [Config.SetDefaults_eq]
  rfl

end log

/-! ## The base index: what `UpdateIndex` reads and what it writes -/

namespace basestore

variable {Entry : Type}

/-- A sequence of calls leaves the field `id` as it was. -/
theorem baseIndex.run_id (cs : List (Call Entry)) (b : baseIndex Entry) :
    (b.run cs).id = b.id := by
  induction cs generalizing b with
  | nil => rfl
  | cons c cs ih =>
    show ((b.call c).2.run cs).id = b.id
    rw [ih, baseIndex.call_id]

/-- Claim C12: `UpdateIndex` ignores its argument `newEntries`: for every index `b`,
every log `L` and any two entry lists `E1`, `E2`, the calls `UpdateIndex(L, E1)` and
`UpdateIndex(L, E2)` return the same error and leave the same index; and the view after
the call is the same from any other index `b2`, whatever view it held before. -/
theorem UpdateIndex_ignores_entries (b b2 : baseIndex Entry) (L : Log Entry)
    (E1 E2 : List Entry) :
    (b.UpdateIndex L E1).1 = (b.UpdateIndex L E2).1 ∧
      (b.UpdateIndex L E1).2 = (b.UpdateIndex L E2).2 ∧
      (b.UpdateIndex L E1).2.index = (b2.UpdateIndex L E2).2.index := by
  exact ⟨rfl, rfl, rfl⟩

/-- Claim C12 at two indexes with different views and two different entry lists. -/
theorem UpdateIndex_ignores_entries_witness :
    (({ id := [1], index := ["X"] } : baseIndex String).UpdateIndex ⟨⟨["A", "B"]⟩⟩ []).2 =
        (({ id := [1], index := ["X"] } : baseIndex String).UpdateIndex
          ⟨⟨["A", "B"]⟩⟩ ["B", "Q"]).2 ∧
      (({ id := [1], index := ["X"] } : baseIndex String).UpdateIndex ⟨⟨["A", "B"]⟩⟩ []).2.index =
        (({ id := [2], index := ["Y", "Z"] } : baseIndex String).UpdateIndex
          ⟨⟨["A", "B"]⟩⟩ ["B", "Q"]).2.index :=
  (UpdateIndex_ignores_entries { id := [1], index := ["X"] } { id := [2], index := ["Y", "Z"] }
    ⟨⟨["A", "B"]⟩⟩ [] ["B", "Q"]).2

/-- Claim C13: `NewBaseIndex(k)` stores `k` as the field `id`, and after every finite
sequence of `Get` and `UpdateIndex` calls on that index the field `id` is still `k`;
on any index `UpdateIndex` leaves `id` as it was and changes the field `index` only, and
`Get` leaves `id` as it was. -/
theorem id_fixed_at_construction (k : List UInt8) (cs : List (Call Entry)) :
    (NewBaseIndex k : baseIndex Entry).id = k ∧
      ((NewBaseIndex k).run cs).id = k ∧
      (∀ (b : baseIndex Entry) (L : Log Entry) (E : List Entry),
        (b.UpdateIndex L E).2.id = b.id ∧
          (b.UpdateIndex L E).2 = { b with index := (b.UpdateIndex L E).2.index }) ∧
      (∀ (b : baseIndex Entry) (n : String), (b.Get n).2.id = b.id) := by
  refine ⟨rfl, ?_, fun _ _ _ => ⟨rfl, rfl⟩, fun _ _ => rfl⟩
  rw [baseIndex.run_id]
  rfl

/-- Claim C13 on a run with two updates: the id given at construction is still there. -/
theorem id_fixed_at_construction_witness :
    ((NewBaseIndex [4, 2]).run
        [Call.UpdateIndex ⟨⟨["A"]⟩⟩ [], Call.Get "", Call.UpdateIndex ⟨⟨["A", "B"]⟩⟩ ["B"]]).id
      = [4, 2] :=
  (id_fixed_at_construction [4, 2]
    [Call.UpdateIndex ⟨⟨["A"]⟩⟩ [], Call.Get "", Call.UpdateIndex ⟨⟨["A", "B"]⟩⟩ ["B"]]).2.1

end basestore

/-! ## The log configuration: `Update`, and `SetDefaults` applied again -/

namespace log

/-- Claim C11: for every `Config` `c` and every argument `cc`, `Update(cc)` sends exactly
one value on the configuration bus, a `ConfigUpdate` whose `Subsystem` is the subsystem
identifier of the package `log` and whose `Config` is `cc`; what was sent before stays
in place; the call returns `nil` and leaves `c` as it was. -/
theorem Update_publishes_one_event {S α : Type} (Subsystem : S) (c : Config) (cc : α)
    (busConfig : List (bus.ConfigUpdate S α)) :
    (c.Update Subsystem cc busConfig).1 = none ∧
      (c.Update Subsystem cc busConfig).2.1 = c ∧
      (c.Update Subsystem cc busConfig).2.2 =
        busConfig ++ [{ Subsystem := Subsystem, Config := cc }] ∧
      (c.Update Subsystem cc busConfig).2.2.length = busConfig.length + 1 := by
  refine ⟨rfl, rfl, rfl, ?_⟩
  simp [Config.Update]

/-- Claim C11 on a bus that already holds one event. -/
theorem Update_publishes_one_event_witness :
    (Config.Update "log" { Level := "info" } "debug"
        [{ Subsystem := "ipfs", Config := "x" }]).2.2 =
      [{ Subsystem := "ipfs", Config := "x" }, { Subsystem := "log", Config := "debug" }] :=
  (Update_publishes_one_event "log" { Level := "info" } "debug"
    [{ Subsystem := "ipfs", Config := "x" }]).2.2.1

/-- Claim C14: `SetDefaults` does not overwrite a level that is set: for every `Config`
`c` with a non-empty `Level` the loop is left in its first iteration with `c` unchanged.
And `SetDefaults` is idempotent: for every `c`, running it on its own result returns that
result again, so twice gives the `Config` that once gives. -/
theorem SetDefaults_keeps_set_level_and_idempotent (c : Config) (fuel fuel2 : Nat) :
    (c.Level ≠ "" → c.SetDefaults (fuel + 1) = some c) ∧
      (c.SetDefaults (fuel + 2)).bind (Config.SetDefaults (fuel2 + 1)) =
        c.SetDefaults (fuel + 2) ∧
      ∃ c1 : Config, c.SetDefaults (fuel + 2) = some c1 ∧
        c1.SetDefaults (fuel2 + 1) = some c1 := by
  have hd : ¬ DefaultConfig.Level = "" := by decide
  have h1 : ∀ d : Config, d.Level ≠ "" → d.SetDefaults (fuel2 + 1) = some d := by
    intro d hne
    simp [Config.SetDefaults, hne]
  refine ⟨fun hne => by simp [Config.SetDefaults, hne], ?_, ?_⟩
  · rw [Config.SetDefaults_eq]
    by_cases h : c.Level = ""
    · simpa [h] using h1 { c with Level := DefaultConfig.Level } hd
    · simpa [h] using h1 c h
  · by_cases h : c.Level = ""
    · exact ⟨{ c with Level := DefaultConfig.Level }, by rw [Config.SetDefaults_eq, if_pos h],
        h1 _ hd⟩
    · exact ⟨c, by rw [Config.SetDefaults_eq, if_neg h], h1 c h⟩

/-- Claim C14 at a configuration whose level is set to "debug". -/
theorem SetDefaults_keeps_set_level_and_idempotent_witness :
    Config.SetDefaults 1 { Level := "debug" } = some { Level := "debug" } :=
  (SetDefaults_keeps_set_level_and_idempotent { Level := "debug" } 0 0).1 (by decide)

end log

/-! ## The services configuration: `SetDefaults`, `Validate` -/

namespace services

variable {Mem : Type}

/-- Two iterations always leave the loop of `SetDefaults`, with `DefaultConfig.IPFS`
assigned when `IPFS` was `nil` and the receiver unchanged otherwise. -/
theorem Config.SetDefaultsLoop_eq (I : Imports Mem) (c : Config) (fuel : Nat) :
    Config.SetDefaultsLoop I (fuel + 2) c =
      some (if c.IPFS = none then { c with IPFS := (DefaultConfig I).IPFS } else c) := by
  by_cases h : c.IPFS = none
  · simp [Config.SetDefaultsLoop, h, DefaultConfig]
  · simp [Config.SetDefaultsLoop, h]

/-- Claim C15: for every services `Config` `c` the loop of `SetDefaults` is left after at
most two iterations with a receiver `c1` whose `IPFS` is not `nil`: it is
`DefaultConfig.IPFS` when `c.IPFS` was `nil` and the pointer `c.IPFS` itself otherwise;
`SetDefaults` then returns exactly when `c1.IPFS.SetDefaults()` returns, and with the
receiver `c1`. And `Validate` returns `nil` exactly when `c.IPFS.Validate()` returns
`nil`; when that call returns an error `err`, `Validate` returns
`errors.Wrap(err, "failed to validate ipfs configuration")`; and `Validate` returns
whenever that call returns. -/
theorem SetDefaults_IPFS_and_Validate_wraps (I : Imports Mem) (c : Config) (m : Mem)
    (fuel : Nat) :
    (∃ c1 : Config, Config.SetDefaultsLoop I (fuel + 2) c = some c1 ∧
        c1.IPFS ≠ none ∧
        (c.IPFS = none → c1.IPFS = (DefaultConfig I).IPFS) ∧
        (c.IPFS ≠ none → c1.IPFS = c.IPFS) ∧
        c.SetDefaults I (fuel + 2) m =
          (I.ipfsSetDefaults c1.IPFS m).map (fun m1 => (c1, m1)) ∧
        ∀ r : Config × Mem, c.SetDefaults I (fuel + 2) m = some r → r.1 = c1) ∧
      (c.Validate I m = some none ↔ I.ipfsValidate c.IPFS m = some none) ∧
      (∀ err : String, I.ipfsValidate c.IPFS m = some (some err) →
        c.Validate I m =
          some (some (I.errorsWrap err "failed to validate ipfs configuration"))) ∧
      (c.Validate I m = none ↔ I.ipfsValidate c.IPFS m = none) := by
  refine ⟨?_, ?_, ?_, ?_⟩
  · have hloop := Config.SetDefaultsLoop_eq I c fuel
    have hset : ∀ c1 : Config, Config.SetDefaultsLoop I (fuel + 2) c = some c1 →
        c.SetDefaults I (fuel + 2) m =
          (I.ipfsSetDefaults c1.IPFS m).map (fun m1 => (c1, m1)) := by
      intro c1 h1
      unfold Config.SetDefaults
      rw [h1]
      cases hm : I.ipfsSetDefaults c1.IPFS m <;> simp [hm]
    have hres : ∀ c1 : Config, Config.SetDefaultsLoop I (fuel + 2) c = some c1 →
        ∀ r : Config × Mem, c.SetDefaults I (fuel + 2) m = some r → r.1 = c1 := by
      intro c1 h1 r hr
      rw [hset c1 h1] at hr
      cases hm : I.ipfsSetDefaults c1.IPFS m with
      | none => rw [hm] at hr; cases hr
      | some m1 =>
        rw [hm] at hr
        cases hr
        rfl
    by_cases h : c.IPFS = none
    · rw [if_pos h] at hloop
      exact ⟨_, hloop, by simp [DefaultConfig], fun _ => rfl, fun hne => absurd h hne,
        hset _ hloop, hres _ hloop⟩
    · rw [if_neg h] at hloop
      exact ⟨c, hloop, h, fun he => absurd he h, fun _ => rfl, hset _ hloop, hres _ hloop⟩
  · unfold Config.Validate
    rcases hv : I.ipfsValidate c.IPFS m with _ | _ | err <;> simp
  · intro err herr
    unfold Config.Validate
    rw [herr]
  · unfold Config.Validate
    rcases hv : I.ipfsValidate c.IPFS m with _ | _ | err <;> simp

/-- Claim C15 at the sample imports: an `ipfs.Config` with an empty field at address 3
is rejected, and `Validate` returns that error wrapped with its message. -/
theorem SetDefaults_IPFS_and_Validate_wraps_witness :
    Config.Validate sampleImports { IPFS := some 3 } (fun _ => "") =
      some (some "failed to validate ipfs configuration: path should not be empty") :=
  (SetDefaults_IPFS_and_Validate_wraps sampleImports { IPFS := some 3 } (fun _ => "") 0).2.2.1
    "path should not be empty" (by decide)

end services
